import Mathlib

/-!
Verification of the conduit proxy's outbound routing and latency-histogram
code against its natural-language specification.

The Rust sources embedded here (shallowly) are:
* `proxy/src/telemetry/metrics/latency.rs` — `Latency`, `Histogram`,
  `BUCKET_MAX_VALUES`, `observe`, `From<Duration> for Latency`;
* `proxy/src/outbound.rs` — `Outbound::{normalize, host_port, destination,
  bind_service}`, `Discovery::poll`, `BindError`, `MAX_IN_FLIGHT`;
* `proxy/src/ctx/http.rs` — `ctx::http::Request::{new, dst_labels}`.

Machine integers (`u32`, `u64`) are embedded as `Nat` with explicit bounds
and explicit `% 2 ^ 32` where wrap-around matters; fallible operations
return `Option` or `Except`.
-/

set_option autoImplicit false

namespace Conduit

/-- Upper bound of the `u32` range, `u32::MAX = 2^32 - 1`. -/
def u32Max : Nat := 4294967295

/-- A latency in milliseconds: `pub struct Latency(u32)` from `latency.rs`.
The wrapped value is a `Nat`; the `u32` range is imposed by hypotheses
(`val ≤ u32Max`) where the claims need it. -/
structure Latency where
  val : Nat
deriving DecidableEq, Repr

/-- `NUM_BUCKETS` from `latency.rs`: the number of buckets in a latency
histogram. -/
def NUM_BUCKETS : Nat := 26

/-- `BUCKET_MAX_VALUES` from `latency.rs`: the maximum value (inclusive) for
each latency bucket, transcribed entry for entry (note the literal
`Latency(0_000)` in the fourth linear run, where its comment
`prometheus.LinearBuckets(1000, 1000, 5)` announces 5000). -/
def BUCKET_MAX_VALUES : List Latency :=
  [⟨1⟩, ⟨2⟩, ⟨3⟩, ⟨4⟩, ⟨5⟩,
   ⟨10⟩, ⟨20⟩, ⟨30⟩, ⟨40⟩, ⟨50⟩,
   ⟨100⟩, ⟨200⟩, ⟨300⟩, ⟨400⟩, ⟨500⟩,
   ⟨1000⟩, ⟨2000⟩, ⟨3000⟩, ⟨4000⟩, ⟨0⟩,
   ⟨10000⟩, ⟨20000⟩, ⟨30000⟩, ⟨40000⟩, ⟨50000⟩,
   ⟨u32Max⟩]

/-- A latency histogram: `pub struct Histogram([u32; NUM_BUCKETS])`.
Counters are `Nat`s incremented modulo `2 ^ 32`. -/
structure Histogram where
  counts : List Nat
deriving DecidableEq, Repr

/-- `Iterator::position` as used in `Histogram::observe`:
index (counting from `i`) of the first element satisfying `p`. -/
def positionFrom {α : Type} (p : α → Bool) (i : Nat) : List α → Option Nat
  | [] => none
  | x :: xs => if p x then some i else positionFrom p (i + 1) xs

/-- `BUCKET_MAX_VALUES.iter().position(p)`. -/
def position {α : Type} (p : α → Bool) (l : List α) : Option Nat :=
  positionFrom p 0 l

/-- `Histogram::observe` from `latency.rs`: find the first bucket whose
(inclusive) upper bound is at least the measurement and increment its
counter.  The source's `.expect("latency value greater than u32::MAX…")`
panic branch is embedded as the `none` result. -/
def Histogram.observe (h : Histogram) (measurement : Latency) : Option Histogram :=
  match position (fun max => decide (measurement.val ≤ max.val)) BUCKET_MAX_VALUES with
  | some i => some ⟨h.counts.set i ((h.counts.getD i 0 + 1) % 2 ^ 32)⟩
  | none => none

/-- `Histogram::new`: `Histogram([0; NUM_BUCKETS])`. -/
def Histogram.new : Histogram :=
  ⟨List.replicate NUM_BUCKETS 0⟩

/-- A whole run of observations, each through `Histogram.observe`. -/
def observeAll (h : Histogram) : List Latency → Option Histogram
  | [] => some h
  | v :: vs => (h.observe v).bind (fun h' => observeAll h' vs)

/-- `SEC_TO_MS` from `latency.rs`. -/
def SEC_TO_MS : Nat := 1000

/-- `MS_TO_NS` from `latency.rs`: conversion ratio from milliseconds to
nanoseconds. -/
def MS_TO_NS : Nat := 1000000

/-- `std::time::Duration`: seconds (`u64`, as returned by `as_secs`) and the
sub-second part in nanoseconds (as returned by `subsec_nanos`). -/
structure Duration where
  secs : Nat
  subsec_nanos : Nat
deriving DecidableEq, Repr

/-- `u32::checked_mul`. -/
def checkedMulU32 (a b : Nat) : Option Nat :=
  if a * b ≤ u32Max then some (a * b) else none

/-- `u32::checked_add`. -/
def checkedAddU32 (a b : Nat) : Option Nat :=
  if a + b ≤ u32Max then some (a + b) else none

/-- `impl From<Duration> for Latency` from `latency.rs`: checked conversion
of the seconds to `u32`, checked multiplication to milliseconds, checked
addition of the sub-second milliseconds; on any failure the value saturates
to `u32::MAX` (with a diagnostic log in the source). -/
def Latency.fromDuration (dur : Duration) : Latency :=
  let secs :=
    if dur.secs ≥ u32Max then none else some dur.secs
  let as_ms :=
    let t := secs.bind (fun as_secs => checkedMulU32 as_secs SEC_TO_MS)
    let t := t.bind (fun as_ms => checkedAddU32 as_ms (dur.subsec_nanos / MS_TO_NS))
    t.getD u32Max
  ⟨as_ms⟩

/-! ### Bucket-selection lemmas -/

theorem positionFrom_nil {α : Type} (p : α → Bool) (i : Nat) :
    positionFrom p i [] = none := rfl

theorem positionFrom_cons {α : Type} (p : α → Bool) (i : Nat) (x : α)
    (xs : List α) :
    positionFrom p i (x :: xs) =
      if p x then some i else positionFrom p (i + 1) xs := rfl

/-- Characterization of `positionFrom`: it returns `some j` exactly when the
`(j - i)`-th element is the first one satisfying `p`. -/
theorem positionFrom_eq_some_iff {α : Type} (p : α → Bool) (d : α) :
    ∀ (l : List α) (i j : Nat),
      positionFrom p i l = some j ↔
        ∃ k, k < l.length ∧ j = i + k ∧ p (l.getD k d) = true ∧
          ∀ m, m < k → p (l.getD m d) = false := by
  intro l
  induction l with
  | nil => intro i j; simp [positionFrom_nil]
  | cons x xs ih =>
    intro i j
    rw [positionFrom_cons]
    by_cases hpx : p x = true
    · rw [if_pos hpx]
      constructor
      · intro h
        refine ⟨0, by simp, ?_, by simpa using hpx, by omega⟩
        have : i = j := by simpa using h
        omega
      · rintro ⟨k, -, hj, hk, hall⟩
        cases k with
        | zero => simp [hj]
        | succ k => exact absurd hpx (by simpa using hall 0 (Nat.succ_pos k))
    · rw [if_neg hpx]
      rw [ih (i + 1) j]
      constructor
      · rintro ⟨k, hkl, hj, hk, hall⟩
        refine ⟨k + 1, by simpa using hkl, by omega, by simpa using hk, ?_⟩
        intro m hm
        cases m with
        | zero => simpa using hpx
        | succ m => simpa using hall m (by omega)
      · rintro ⟨k, hkl, hj, hk, hall⟩
        cases k with
        | zero => exact absurd (by simpa using hk) hpx
        | succ k =>
          refine ⟨k, by simpa using hkl, by omega, by simpa using hk, ?_⟩
          intro m hm
          simpa using hall (m + 1) (by omega)

/-- `positionFrom` returns `none` exactly when no element satisfies `p`. -/
theorem positionFrom_eq_none_iff {α : Type} (p : α → Bool) (d : α) :
    ∀ (l : List α) (i : Nat),
      positionFrom p i l = none ↔
        ∀ m, m < l.length → p (l.getD m d) = false := by
  intro l
  induction l with
  | nil => intro i; simp [positionFrom_nil]
  | cons x xs ih =>
    intro i
    rw [positionFrom_cons]
    by_cases hpx : p x = true
    · rw [if_pos hpx]
      constructor
      · intro h; exact absurd h (by simp)
      · intro hall; exact absurd hpx (by simpa using hall 0 (by simp))
    · rw [if_neg hpx]
      rw [ih (i + 1)]
      constructor
      · intro hall m hm
        cases m with
        | zero => simpa using hpx
        | succ m => simpa using hall m (by simpa using hm)
      · intro hall m hm
        simpa using hall (m + 1) (by simpa using hm)

/-- Characterization of the bucket search at index origin 0. -/
theorem position_eq_some_iff {α : Type} (p : α → Bool) (d : α) (l : List α)
    (j : Nat) :
    position p l = some j ↔
      j < l.length ∧ p (l.getD j d) = true ∧
        ∀ m, m < j → p (l.getD m d) = false := by
  rw [position, positionFrom_eq_some_iff p d l 0 j]
  constructor
  · rintro ⟨k, hkl, hj, hk, hall⟩
    exact ⟨by omega, by simpa [hj] using hk, fun m hm => hall m (by omega)⟩
  · rintro ⟨hjl, hj, hall⟩
    exact ⟨j, hjl, by omega, hj, hall⟩

/-- The bucket search succeeds for any measurement in the `u32` range:
the catch-all bound `u32::MAX` always matches. -/
theorem position_bucket_isSome (v : Nat) (hv : v ≤ u32Max) :
    ∃ j, position (fun max => decide (v ≤ max.val)) BUCKET_MAX_VALUES = some j
      ∧ j < NUM_BUCKETS := by
  rcases hpos : position (fun max => decide (v ≤ max.val)) BUCKET_MAX_VALUES with
      _ | j
  · exfalso
    rw [position, positionFrom_eq_none_iff _ (⟨0⟩ : Latency)] at hpos
    have h25 := hpos 25 (by decide)
    have : BUCKET_MAX_VALUES.getD 25 (⟨0⟩ : Latency) = ⟨u32Max⟩ := rfl
    rw [this] at h25
    simp only [decide_eq_false_iff_not] at h25
    exact h25 hv
  · rw [position_eq_some_iff _ (⟨0⟩ : Latency)] at hpos
    exact ⟨j, by rw [position_eq_some_iff _ (⟨0⟩ : Latency)]; exact hpos,
      by have := hpos.1; simpa [NUM_BUCKETS] using this⟩

/-- The bucket search never lands on the dead index 19 (its bound is 0, and
index 0 already catches every measurement that is at most 0). -/
theorem position_bucket_ne_19 (v : Nat) :
    position (fun max => decide (v ≤ max.val)) BUCKET_MAX_VALUES ≠ some 19 := by
  intro h
  rw [position_eq_some_iff _ (⟨0⟩ : Latency)] at h
  rcases h with ⟨-, h19, hall⟩
  have e19 : BUCKET_MAX_VALUES.getD 19 (⟨0⟩ : Latency) = ⟨0⟩ := rfl
  rw [e19] at h19
  simp only [decide_eq_true_eq] at h19
  have h0 := hall 0 (by omega)
  have e0 : BUCKET_MAX_VALUES.getD 0 (⟨0⟩ : Latency) = ⟨1⟩ := rfl
  rw [e0] at h0
  simp only [decide_eq_false_iff_not] at h0
  omega

/-- Every measurement in `4001..=10000` lands in the bucket with bound
10000, at index 20. -/
theorem position_bucket_of_4001_10000 (v : Nat) (h1 : 4001 ≤ v)
    (h2 : v ≤ 10000) :
    position (fun max => decide (v ≤ max.val)) BUCKET_MAX_VALUES = some 20 := by
  rw [position_eq_some_iff _ (⟨0⟩ : Latency)]
  refine ⟨by decide, ?_, ?_⟩
  · have e20 : BUCKET_MAX_VALUES.getD 20 (⟨0⟩ : Latency) = ⟨10000⟩ := rfl
    rw [e20]
    simpa using h2
  · intro m hm
    have hb : ∀ m, m < 20 → (BUCKET_MAX_VALUES.getD m (⟨0⟩ : Latency)).val ≤ 4000 := by
      decide
    have := hb m hm
    simp only [decide_eq_false_iff_not]
    omega

theorem getD_set_ne {α : Type} (d a : α) :
    ∀ (l : List α) (i j : Nat), i ≠ j → (l.set i a).getD j d = l.getD j d := by
  intro l
  induction l with
  | nil => intro i j _; rfl
  | cons x xs ih =>
    intro i j h
    cases i with
    | zero =>
      cases j with
      | zero => exact absurd rfl h
      | succ j => simp [List.getD_cons_succ]
    | succ i =>
      cases j with
      | zero => simp [List.getD_cons_zero]
      | succ j =>
        simp only [List.set_cons_succ, List.getD_cons_succ]
        exact ih i j (by omega)

/-- Unfolding `Histogram.observe` when the bucket search succeeds. -/
theorem observe_eq_of_position (h : Histogram) (v : Latency) (i : Nat)
    (hp : position (fun max => decide (v.val ≤ max.val)) BUCKET_MAX_VALUES
      = some i) :
    h.observe v = some ⟨h.counts.set i ((h.counts.getD i 0 + 1) % 2 ^ 32)⟩ := by
  unfold Histogram.observe
  rw [hp]

/-- `observe` never touches the counter of the dead bucket 19. -/
theorem observe_preserves_19 (h h' : Histogram) (v : Latency)
    (hov : h.observe v = some h') :
    h'.counts.getD 19 0 = h.counts.getD 19 0 := by
  unfold Histogram.observe at hov
  rcases hpos : position (fun max => decide (v.val ≤ max.val)) BUCKET_MAX_VALUES
      with _ | i
  · rw [hpos] at hov; exact absurd hov (by simp)
  · rw [hpos] at hov
    have hne : i ≠ 19 := fun hi => position_bucket_ne_19 v.val (hi ▸ hpos)
    have hh' : h' = ⟨h.counts.set i ((h.counts.getD i 0 + 1) % 2 ^ 32)⟩ := by
      exact (Option.some.injEq _ _ ▸ hov).symm
    rw [hh']
    exact getD_set_ne 0 _ h.counts i 19 hne

/-- A run of successful observations never touches the dead bucket 19. -/
theorem observeAll_preserves_19 :
    ∀ (vs : List Latency) (h h' : Histogram),
      observeAll h vs = some h' →
      h'.counts.getD 19 0 = h.counts.getD 19 0 := by
  intro vs
  induction vs with
  | nil => intro h h' hrun; cases hrun; rfl
  | cons v vs ih =>
    intro h h' hrun
    unfold observeAll at hrun
    rcases hov : h.observe v with _ | h1
    · rw [hov] at hrun; exact absurd hrun (by simp)
    · rw [hov] at hrun
      simp only [Option.some_bind] at hrun
      rw [ih h1 h' hrun]
      exact observe_preserves_19 h h1 v hov

/-! ### Claims about the latency histogram -/

/-- C1 (code_bug evidence): `BUCKET_MAX_VALUES` does not strictly increase
between indices 18 and 19 — the entry at index 19 is `Latency(0)` where the
in-source comment `prometheus.LinearBuckets(1000, 1000, 5)` announces 5000;
the last bound does equal `u32::MAX` and there are 26 entries. -/
theorem bucket_bounds_break_at_19 :
    (BUCKET_MAX_VALUES.getD 18 ⟨0⟩).val = 4000 ∧
    (BUCKET_MAX_VALUES.getD 19 ⟨0⟩).val = 0 ∧
    ¬((BUCKET_MAX_VALUES.getD 18 ⟨0⟩).val
        < (BUCKET_MAX_VALUES.getD 19 ⟨0⟩).val) ∧
    (BUCKET_MAX_VALUES.getD 25 ⟨0⟩).val = u32Max ∧
    BUCKET_MAX_VALUES.length = NUM_BUCKETS := by
  refine ⟨rfl, rfl, by decide, rfl, rfl⟩

/-- C3 (code_bug evidence): the upper bound of bucket 19 is `Latency(0)`,
and observing that very value increments bucket 0, not bucket 19 —
inclusive-bound semantics fails at the transcribed-to-zero bucket. -/
theorem observe_at_bound_19_hits_bucket_0 :
    BUCKET_MAX_VALUES.getD 19 ⟨0⟩ = ⟨0⟩ ∧
    Histogram.new.observe ⟨0⟩
      = some ⟨(List.replicate NUM_BUCKETS 0).set 0 1⟩ ∧
    (Histogram.new.observe ⟨0⟩).map (fun h => h.counts.getD 19 0) = some 0 := by
  refine ⟨rfl, by decide, by decide⟩

/-- C4: `observe` is total on the `u32` range — some bucket bound is always
at least the measurement (the catch-all bound is `u32::MAX`), so `observe`
increments exactly one bucket and the panic branch (the `none` result) is
unreachable. -/
theorem observe_total (h : Histogram) (v : Latency) (hv : v.val ≤ u32Max) :
    ∃ i, i < NUM_BUCKETS ∧
      h.observe v = some ⟨h.counts.set i ((h.counts.getD i 0 + 1) % 2 ^ 32)⟩ := by
  obtain ⟨j, hj, hlt⟩ := position_bucket_isSome v.val hv
  exact ⟨j, hlt, observe_eq_of_position h v j hj⟩

/-- Witness for C4 at the concrete measurement 7. -/
theorem observe_total_witness :
    ∃ i, i < NUM_BUCKETS ∧
      Histogram.new.observe ⟨7⟩
        = some ⟨Histogram.new.counts.set i
            ((Histogram.new.counts.getD i 0 + 1) % 2 ^ 32)⟩ :=
  observe_total Histogram.new ⟨7⟩ (by decide)

/-- C5: `Latency::from(Duration)` truncates to whole milliseconds when the
result is representable, and saturates to `u32::MAX` whenever the seconds
reach `u32::MAX` or an intermediate step overflows; a 1500 ms duration
yields `Latency(1500)`. -/
theorem latency_fromDuration_spec (d : Duration) :
    (d.secs < u32Max →
      d.secs * SEC_TO_MS + d.subsec_nanos / MS_TO_NS ≤ u32Max →
      Latency.fromDuration d
        = ⟨d.secs * 1000 + d.subsec_nanos / 1000000⟩) ∧
    (u32Max ≤ d.secs ∨
        u32Max < d.secs * SEC_TO_MS + d.subsec_nanos / MS_TO_NS →
      Latency.fromDuration d = ⟨u32Max⟩) ∧
    Latency.fromDuration ⟨1, 500000000⟩ = ⟨1500⟩ := by
  refine ⟨?_, ?_, by decide⟩
  · intro h1 h2
    unfold Latency.fromDuration checkedMulU32 checkedAddU32
    rw [if_neg (by omega)]
    simp only [SEC_TO_MS, MS_TO_NS] at h2 ⊢
    simp only [Option.some_bind]
    rw [if_pos (by omega)]
    simp only [Option.some_bind]
    rw [if_pos (by omega)]
    rfl
  · intro hsat
    unfold Latency.fromDuration checkedMulU32 checkedAddU32
    simp only [SEC_TO_MS, MS_TO_NS] at hsat ⊢
    by_cases hs : u32Max ≤ d.secs
    · rw [if_pos hs]; rfl
    · rw [if_neg hs]
      simp only [Option.some_bind]
      by_cases hm : d.secs * 1000 ≤ u32Max
      · rw [if_pos hm]
        simp only [Option.some_bind]
        rw [if_neg (by omega)]
        rfl
      · rw [if_neg hm]; rfl

/-- Witness for C5: 1500 ms converts exactly; a duration of `u32::MAX`
seconds saturates. -/
theorem latency_fromDuration_witness :
    Latency.fromDuration ⟨1, 500000000⟩ = ⟨1500⟩ ∧
    Latency.fromDuration ⟨4294967295, 0⟩ = ⟨u32Max⟩ :=
  ⟨(latency_fromDuration_spec ⟨1, 500000000⟩).1 (by decide) (by decide),
    (latency_fromDuration_spec ⟨4294967295, 0⟩).2.1 (Or.inl (by decide))⟩

/-- C9: the bucket at index 19 (bound `Latency(0)`) is dead — its counter
stays 0 after any successful run of observations from `Histogram::new` —
and every measurement in `4001..=10000` is counted in the 10000 bucket
(index 20). -/
theorem dead_bucket_19 :
    (∀ (vs : List Latency) (h' : Histogram),
      observeAll Histogram.new vs = some h' → h'.counts.getD 19 0 = 0) ∧
    (∀ (v : Latency) (h : Histogram), 4001 ≤ v.val → v.val ≤ 10000 →
      h.observe v
        = some ⟨h.counts.set 20 ((h.counts.getD 20 0 + 1) % 2 ^ 32)⟩) := by
  constructor
  · intro vs h' hrun
    rw [observeAll_preserves_19 vs Histogram.new h' hrun]
    rfl
  · intro v h h1 h2
    exact observe_eq_of_position h v 20 (position_bucket_of_4001_10000 v.val h1 h2)

/-- Witness for C9: one observation of 5000 from the fresh histogram leaves
bucket 19 at zero and lands in bucket 20. -/
theorem dead_bucket_19_witness :
    (⟨(List.replicate NUM_BUCKETS 0).set 20 1⟩ : Histogram).counts.getD 19 0 = 0 ∧
    Histogram.new.observe ⟨5000⟩
      = some ⟨Histogram.new.counts.set 20
          ((Histogram.new.counts.getD 20 0 + 1) % 2 ^ 32)⟩ :=
  ⟨dead_bucket_19.1 [⟨5000⟩] ⟨(List.replicate NUM_BUCKETS 0).set 20 1⟩ (by decide),
    dead_bucket_19.2 ⟨5000⟩ Histogram.new (by decide) (by decide)⟩

/-! ### Outbound destination resolution (`outbound.rs`) -/

/-- An IP address, kept abstract. -/
structure IpAddr where
  val : Nat
deriving DecidableEq, Repr

/-- `std::net::SocketAddr`: an (ip, port) pair. -/
structure SocketAddr where
  ip : IpAddr
  port : Nat
deriving DecidableEq, Repr

/-- Modelled from the spec: `transport::Host` (its module is not in src/) —
a request host is either a logical DNS name or a literal IP address. -/
inductive Host where
  | DnsName (name : String)
  | Ip (ip : IpAddr)
deriving DecidableEq, Repr

/-- Modelled from the spec: `transport::HostAndPort` (not in src/) — a
normalized (host, port) pair. -/
structure HostAndPort where
  host : Host
  port : Nat
deriving DecidableEq, Repr

/-- Modelled from the spec: `transport::DnsNameAndPort` (not in src/) — a
DNS name together with a port. -/
structure DnsNameAndPort where
  host : String
  port : Nat
deriving DecidableEq, Repr

/-- Modelled from the spec: the parse of an `http::uri::Authority` — a host
(`none` when the authority is malformed, i.e. `HostAndPort::normalize`
fails on it) and an optional explicit port. -/
structure Authority where
  host : Option Host
  port : Option Nat
deriving DecidableEq, Repr

/-- Modelled from the spec: `HostAndPort::normalize(authority, default_port)`
(not in src/) — a malformed authority yields no result, an absent port
falls back to the given default. -/
def HostAndPort.normalize (a : Authority) (default_port : Option Nat) :
    Option HostAndPort :=
  match a.host with
  | none => none
  | some h =>
    match a.port with
    | some p => some ⟨h, p⟩
    | none => default_port.map (fun p => ⟨h, p⟩)

/-- Modelled from the spec: `ctx::transport::Server` (not in src/) — the
connection context, carrying the captured original destination
(`SO_ORIGINAL_DST`) and whether that address is local. -/
structure Server where
  orig_dst : Option SocketAddr
  orig_dst_local : Bool
deriving DecidableEq, Repr

/-- Modelled from the spec: `Server::orig_dst_if_not_local` (not in src/) —
the captured original destination iff present and not local. -/
def Server.orig_dst_if_not_local (s : Server) : Option SocketAddr :=
  match s.orig_dst with
  | none => none
  | some addr => if s.orig_dst_local then none else some addr

/-- Destination labels: key/value tags attached by the discovery layer
(`telemetry::metrics::DstLabels`, kept abstract at this layer). -/
abbrev DstLabels : Type := List (String × String)

/-- The parts of an `http::Request<B>` that the embedded code reads: the
URI's authority, the `Host` header parsed as an authority (the result of
`h1::authority_from_host`, whose parser is not in src/), and the two
extensions used here — the connection's `ctx::transport::Server` and the
discovery-attached `DstLabels`.  `method` and `other` stand for the rest of
the request (method, body, remaining headers, ...). -/
structure Request where
  uriAuthority : Option Authority
  hostHeader : Option Authority
  serverCtx : Option Server
  dstLabelsExt : Option DstLabels
  method : String
  other : Nat

/-- `Destination` from `outbound.rs`. -/
inductive Destination where
  | Hostname (dst : DnsNameAndPort)
  | ImplicitOriginalDst (addr : SocketAddr)
deriving DecidableEq, Repr

/-- `Outbound::normalize` from `outbound.rs`: normalize with a default port
of 80, treating failure as absence. -/
def Outbound.normalize (authority : Authority) : Option HostAndPort :=
  HostAndPort.normalize authority (some 80)

/-- Modelled from the spec: `h1::authority_from_host` (not in src/) loads
the authority from the request's `Host` header; its parse result is the
`hostHeader` field of the request model. -/
def authority_from_host (req : Request) : Option Authority :=
  req.hostHeader

/-- `Outbound::host_port` from `outbound.rs`: URI authority first, then the
`Host` header, each normalized. -/
def Outbound.host_port (req : Request) : Option HostAndPort :=
  match req.uriAuthority.bind Outbound.normalize with
  | some hp => some hp
  | none => (authority_from_host req).bind (fun h => Outbound.normalize h)

/-- `Outbound::destination` from `outbound.rs`. -/
def Outbound.destination (req : Request) : Option Destination :=
  match Outbound.host_port req with
  | some ⟨Host.DnsName host, port⟩ =>
    some (Destination.Hostname ⟨host, port⟩)
  | some ⟨Host.Ip ip, port⟩ =>
    some (Destination.ImplicitOriginalDst ⟨ip, port⟩)
  | none =>
    (req.serverCtx.bind Server.orig_dst_if_not_local).map
      Destination.ImplicitOriginalDst

/-- C2: `destination()` applies first-match-wins.  A URI authority is
normalized with port defaulting to 80 (a malformed one is treated as
absent); otherwise the `Host` header is normalized the same way; otherwise
the connection's captured original destination is returned iff present and
not local; otherwise the result is `none`.  DNS names yield `Hostname`,
literal IPs yield `ImplicitOriginalDst`. -/
theorem destination_first_match (req : Request) :
    (∀ name p, req.uriAuthority = some ⟨some (Host.DnsName name), some p⟩ →
      Outbound.destination req = some (Destination.Hostname ⟨name, p⟩)) ∧
    (∀ ip p, req.uriAuthority = some ⟨some (Host.Ip ip), some p⟩ →
      Outbound.destination req = some (Destination.ImplicitOriginalDst ⟨ip, p⟩)) ∧
    (∀ name, req.uriAuthority = some ⟨some (Host.DnsName name), none⟩ →
      Outbound.destination req = some (Destination.Hostname ⟨name, 80⟩)) ∧
    (∀ ip, req.uriAuthority = some ⟨some (Host.Ip ip), none⟩ →
      Outbound.destination req = some (Destination.ImplicitOriginalDst ⟨ip, 80⟩)) ∧
    (∀ pOpt, req.uriAuthority = some ⟨none, pOpt⟩ →
      Outbound.destination req
        = Outbound.destination { req with uriAuthority := none }) ∧
    (req.uriAuthority = none →
      (∀ name p, req.hostHeader = some ⟨some (Host.DnsName name), some p⟩ →
        Outbound.destination req = some (Destination.Hostname ⟨name, p⟩)) ∧
      (∀ name, req.hostHeader = some ⟨some (Host.DnsName name), none⟩ →
        Outbound.destination req = some (Destination.Hostname ⟨name, 80⟩)) ∧
      (∀ ip p, req.hostHeader = some ⟨some (Host.Ip ip), some p⟩ →
        Outbound.destination req
          = some (Destination.ImplicitOriginalDst ⟨ip, p⟩))) ∧
    (req.uriAuthority = none → req.hostHeader = none →
      (∀ s addr, req.serverCtx = some s → s.orig_dst = some addr →
        s.orig_dst_local = false →
        Outbound.destination req
          = some (Destination.ImplicitOriginalDst addr)) ∧
      (∀ s, req.serverCtx = some s →
        (s.orig_dst = none ∨ s.orig_dst_local = true) →
        Outbound.destination req = none) ∧
      (req.serverCtx = none → Outbound.destination req = none)) := by
  refine ⟨?_, ?_, ?_, ?_, ?_, ?_, ?_⟩
  · intro name p hA
    simp [Outbound.destination, Outbound.host_port, Outbound.normalize,
      HostAndPort.normalize, authority_from_host, hA]
  · intro ip p hA
    simp [Outbound.destination, Outbound.host_port, Outbound.normalize,
      HostAndPort.normalize, authority_from_host, hA]
  · intro name hA
    simp [Outbound.destination, Outbound.host_port, Outbound.normalize,
      HostAndPort.normalize, authority_from_host, hA]
  · intro ip hA
    simp [Outbound.destination, Outbound.host_port, Outbound.normalize,
      HostAndPort.normalize, authority_from_host, hA]
  · intro pOpt hA
    simp [Outbound.destination, Outbound.host_port, Outbound.normalize,
      HostAndPort.normalize, authority_from_host, hA]
  · intro hU
    refine ⟨?_, ?_, ?_⟩
    · intro name p hH
      simp [Outbound.destination, Outbound.host_port, Outbound.normalize,
        HostAndPort.normalize, authority_from_host, hU, hH]
    · intro name hH
      simp [Outbound.destination, Outbound.host_port, Outbound.normalize,
        HostAndPort.normalize, authority_from_host, hU, hH]
    · intro ip p hH
      simp [Outbound.destination, Outbound.host_port, Outbound.normalize,
        HostAndPort.normalize, authority_from_host, hU, hH]
  · intro hU hH
    refine ⟨?_, ?_, ?_⟩
    · intro s addr hs hdst hlocal
      simp [Outbound.destination, Outbound.host_port, Outbound.normalize,
        HostAndPort.normalize, authority_from_host, hU, hH, hs,
        Server.orig_dst_if_not_local, hdst, hlocal]
    · intro s hs hbad
      rcases hbad with hnone | hlocal
      · simp [Outbound.destination, Outbound.host_port, Outbound.normalize,
          HostAndPort.normalize, authority_from_host, hU, hH, hs,
          Server.orig_dst_if_not_local, hnone]
      · rcases hdst : s.orig_dst with _ | addr <;>
          simp [Outbound.destination, Outbound.host_port, Outbound.normalize,
            HostAndPort.normalize, authority_from_host, hU, hH, hs,
            Server.orig_dst_if_not_local, hdst, hlocal]
    · intro hs
      simp [Outbound.destination, Outbound.host_port, Outbound.normalize,
        HostAndPort.normalize, authority_from_host, hU, hH, hs]

/-- Witness for C2 at concrete requests: a URI authority with a DNS name and
no port resolves to port 80, and with neither authority nor header nor
server context the destination is `none`. -/
theorem destination_first_match_witness :
    Outbound.destination
        ⟨some ⟨some (Host.DnsName "svc"), none⟩, none, none, none, "GET", 0⟩
      = some (Destination.Hostname ⟨"svc", 80⟩) ∧
    Outbound.destination ⟨none, none, none, none, "GET", 0⟩ = none :=
  ⟨(destination_first_match
      ⟨some ⟨some (Host.DnsName "svc"), none⟩, none, none, none, "GET", 0⟩).2.2.1
        "svc" rfl,
    ((destination_first_match ⟨none, none, none, none, "GET", 0⟩).2.2.2.2.2.2
      rfl rfl).2.2 rfl⟩

/-- C8: `destination()` is deterministic in its declared inputs — two
requests agreeing on URI authority, headers (the parsed `Host` header) and
the captured original-destination extension resolve to equal destinations,
whatever else (method, body, other extensions) differs. -/
theorem destination_deterministic (r1 r2 : Request)
    (hU : r1.uriAuthority = r2.uriAuthority)
    (hH : r1.hostHeader = r2.hostHeader)
    (hS : r1.serverCtx = r2.serverCtx) :
    Outbound.destination r1 = Outbound.destination r2 := by
  cases r1
  cases r2
  simp only at hU hH hS
  subst hU
  subst hH
  subst hS
  rfl

/-- Witness for C8: two requests differing only in the non-input fields. -/
theorem destination_deterministic_witness :
    Outbound.destination
        ⟨some ⟨some (Host.DnsName "svc"), some 8080⟩, none, none, none, "GET", 0⟩
      = Outbound.destination
        ⟨some ⟨some (Host.DnsName "svc"), some 8080⟩, none, none,
          some [("k", "v")], "PUT", 7⟩ :=
  destination_deterministic _ _ rfl rfl rfl

/-! ### Discovery adapter and service binding (`outbound.rs`) -/

/-- `futures::Async`: a poll result is ready or not ready. -/
inductive Async (α : Type) where
  | Ready (a : α)
  | NotReady
deriving DecidableEq, Repr

/-- `tower_discover::Change`: an endpoint-set change event. -/
inductive Change (K V : Type) where
  | Insert (k : K) (v : V)
  | Remove (k : K)
deriving DecidableEq, Repr

/-- `BindError` from `outbound.rs`. -/
inductive BindError where
  | External (addr : SocketAddr)
  | Internal
deriving DecidableEq, Repr

/-- Modelled from the spec: `bind::BindProtocol` (bind.rs is not in src/) —
endpoint construction for an address, which can fail (the cause is opaque
at this layer). -/
structure BindProtocol (Svc : Type) where
  bind : SocketAddr → Except Unit Svc

/-- Modelled from the spec: `control::destination::Resolution` (not in
src/) — the naming-service subscription, embedded as the finite prefix of
its change stream that the adapter will drain; stream errors become
`BindError::Internal` at this layer. -/
abbrev Resolution (Svc : Type) : Type :=
  List (Except Unit (Async (Change SocketAddr Svc)))

/-- `Discovery` from `outbound.rs`: a named subscription, or a single
implicit-original-destination slot (`Some` while pending, `None` after
delivery or failure). -/
inductive Discovery (Svc : Type) where
  | NamedSvc (w : Resolution Svc)
  | ImplicitOriginalDst (slot : Option (SocketAddr × BindProtocol Svc))

/-- `Discovery::poll` from `outbound.rs`, as a state transformer returning
the poll result and the successor state.  In the `ImplicitOriginalDst`
state the slot is `take`n: on success one `Insert` is emitted, on failure
`BindError::External { addr }` is returned; either way the slot is cleared
and later polls return `NotReady`. -/
def Discovery.poll {Svc : Type} :
    Discovery Svc →
      Except BindError (Async (Change SocketAddr Svc)) × Discovery Svc
  | .NamedSvc [] => (.ok .NotReady, .NamedSvc [])
  | .NamedSvc (.ok c :: rest) => (.ok c, .NamedSvc rest)
  | .NamedSvc (.error _ :: rest) => (.error .Internal, .NamedSvc rest)
  | .ImplicitOriginalDst (some (addr, bind)) =>
    match bind.bind addr with
    | .ok svc => (.ok (.Ready (.Insert addr svc)), .ImplicitOriginalDst none)
    | .error _ => (.error (.External addr), .ImplicitOriginalDst none)
  | .ImplicitOriginalDst none => (.ok .NotReady, .ImplicitOriginalDst none)

/-- The sequence of the first `n` poll results of a `Discovery` value. -/
def pollTrace {Svc : Type} (d : Discovery Svc) :
    Nat → List (Except BindError (Async (Change SocketAddr Svc)))
  | 0 => []
  | n + 1 => (d.poll).1 :: pollTrace (d.poll).2 n

/-- Whether a poll result is a ready `Insert` event. -/
def isInsert {Svc : Type} :
    Except BindError (Async (Change SocketAddr Svc)) → Bool
  | .ok (.Ready (.Insert _ _)) => true
  | _ => false

/-- Whether a poll result is a ready `Remove` event. -/
def isRemove {Svc : Type} :
    Except BindError (Async (Change SocketAddr Svc)) → Bool
  | .ok (.Ready (.Remove _)) => true
  | _ => false

theorem countP_replicate_false {α : Type} (p : α → Bool) (a : α)
    (h : p a = false) (n : Nat) : (List.replicate n a).countP p = 0 := by
  induction n with
  | zero => simp
  | succ n ih => simp [List.replicate_succ, List.countP_cons, h, ih]

/-- An exhausted implicit-original-destination slot polls `NotReady`
forever. -/
theorem pollTrace_exhausted {Svc : Type} (n : Nat) :
    pollTrace (Discovery.ImplicitOriginalDst (none : Option (SocketAddr × BindProtocol Svc))) n
      = List.replicate n (.ok .NotReady) := by
  induction n with
  | zero => rfl
  | succ n ih => simp [pollTrace, Discovery.poll, ih, List.replicate_succ]

/-- C6: in the `ImplicitOriginalDst` state, the whole lifetime of poll
results holds at most one `Insert` and no `Remove`; after the first poll —
a successful `Insert`, or `BindError::External` carrying the address — the
slot is cleared and every later poll is `NotReady`; an empty slot only ever
yields `NotReady`. -/
theorem discovery_implicit_single_insert {Svc : Type}
    (slot : Option (SocketAddr × BindProtocol Svc)) (n : Nat) :
    ((pollTrace (Discovery.ImplicitOriginalDst slot) n).countP isInsert ≤ 1) ∧
    ((pollTrace (Discovery.ImplicitOriginalDst slot) n).countP isRemove = 0) ∧
    (∀ addr bind svc, slot = some (addr, bind) → bind.bind addr = .ok svc →
      pollTrace (Discovery.ImplicitOriginalDst slot) (n + 1)
        = .ok (.Ready (.Insert addr svc)) :: List.replicate n (.ok .NotReady)) ∧
    (∀ addr bind e, slot = some (addr, bind) → bind.bind addr = .error e →
      pollTrace (Discovery.ImplicitOriginalDst slot) (n + 1)
        = .error (.External addr) :: List.replicate n (.ok .NotReady)) ∧
    (slot = none →
      pollTrace (Discovery.ImplicitOriginalDst slot) n
        = List.replicate n (.ok .NotReady)) := by
  refine ⟨?_, ?_, ?_, ?_, ?_⟩
  · rcases slot with _ | ⟨addr, bind⟩
    · rw [pollTrace_exhausted]
      rw [countP_replicate_false isInsert (Except.ok Async.NotReady) rfl]
      omega
    · cases n with
      | zero => simp [pollTrace]
      | succ n =>
        rcases hb : bind.bind addr with e | svc <;>
          simp [pollTrace, Discovery.poll, hb, pollTrace_exhausted,
            List.countP_cons, countP_replicate_false isInsert (Except.ok Async.NotReady) rfl, isInsert]
  · rcases slot with _ | ⟨addr, bind⟩
    · rw [pollTrace_exhausted]
      exact countP_replicate_false isRemove (Except.ok Async.NotReady) rfl n
    · cases n with
      | zero => simp [pollTrace]
      | succ n =>
        rcases hb : bind.bind addr with e | svc <;>
          simp [pollTrace, Discovery.poll, hb, pollTrace_exhausted,
            List.countP_cons, countP_replicate_false isRemove (Except.ok Async.NotReady) rfl, isRemove]
  · rintro addr bind svc rfl hb
    simp [pollTrace, Discovery.poll, hb, pollTrace_exhausted]
  · rintro addr bind e rfl hb
    simp [pollTrace, Discovery.poll, hb, pollTrace_exhausted]
  · rintro rfl
    exact pollTrace_exhausted n

/-- Witness for C6: a concrete slot whose construction succeeds delivers
exactly one insert and then two `NotReady`s. -/
theorem discovery_implicit_single_insert_witness :
    pollTrace
        (Discovery.ImplicitOriginalDst
          (some ((⟨⟨0⟩, 80⟩ : SocketAddr), ⟨fun _ => Except.ok ()⟩)))
        (2 + 1)
      = .ok (.Ready (.Insert (⟨⟨0⟩, 80⟩ : SocketAddr) ()))
          :: List.replicate 2 (.ok .NotReady) :=
  (discovery_implicit_single_insert
      (some ((⟨⟨0⟩, 80⟩ : SocketAddr), ⟨fun _ => Except.ok ()⟩)) 2).2.2.1
    ⟨⟨0⟩, 80⟩ ⟨fun _ => Except.ok ()⟩ () rfl rfl

/-- `MAX_IN_FLIGHT` from `outbound.rs`. -/
def MAX_IN_FLIGHT : Nat := 10000

/-- `DEFAULT_DECAY` from `outbound.rs`: 10 seconds, the Finagle default. -/
def DEFAULT_DECAY : Duration := ⟨10, 0⟩

/-- Modelled from the spec: `bind::Protocol` (bind.rs is not in src/) — the
protocol detected per request, one of the two HTTP versions. -/
inductive Protocol where
  | Http1
  | Http2
deriving DecidableEq, Repr

/-- Modelled from the spec: `bind::Bind` (bind.rs is not in src/) — all the
adapter needs from it is `clone().with_protocol(...)`, producing a
`BindProtocol`. -/
structure Bind (Svc : Type) where
  withProtocol : Protocol → BindProtocol Svc

/-- Modelled from the spec: `control::destination::Resolver` (not in
src/) — opens the naming-service subscription for an authority. -/
structure Resolver (Svc : Type) where
  resolve : DnsNameAndPort → BindProtocol Svc → Resolution Svc

/-- `Outbound` from `outbound.rs`: binder, discovery resolver and the
configured bind timeout. -/
structure Outbound (Svc : Type) where
  bind : Bind Svc
  discovery : Resolver Svc
  bind_timeout : Duration

/-- `tower_h2_balance::PendingUntilFirstData`, the load instrument (no
observable state at this layer). -/
structure PendingUntilFirstData where

/-- `tower_balance::load::WithPeakEwma`: the discovery source with its decay
and instrument. -/
structure WithPeakEwma (D : Type) where
  discover : D
  decay : Duration
  instrument : PendingUntilFirstData

/-- `load::WithPeakEwma::new`. -/
def WithPeakEwma.new {D : Type} (d : D) (decay : Duration)
    (instrument : PendingUntilFirstData) : WithPeakEwma D :=
  ⟨d, decay, instrument⟩

/-- `tower_balance::Balance` with power-of-two-choices. -/
structure Balance (L : Type) where
  loaded : L

/-- `Balance::p2c`. -/
def Balance.p2c {L : Type} (l : L) : Balance L := ⟨l⟩

/-- `tower_buffer::Buffer`: the single-flight buffering stage. -/
structure Buffer (S : Type) where
  inner : S

/-- Modelled from the spec: `Buffer::new(svc, executor)` (external crate) —
constructing the buffering stage fails iff its driving task cannot be
spawned on the executor, abstracted as the flag `spawnOk`. -/
def Buffer.new {S : Type} (s : S) (spawnOk : Bool) : Except Unit (Buffer S) :=
  if spawnOk then .ok ⟨s⟩ else .error ()

/-- `timeout::Timeout`: a service with a deadline. -/
structure Timeout (S : Type) where
  inner : S
  duration : Duration

/-- `Timeout::new`. -/
def Timeout.new {S : Type} (s : S) (duration : Duration) : Timeout S :=
  ⟨s, duration⟩

/-- `tower_in_flight_limit::InFlightLimit`: a service with a concurrency
cap. -/
structure InFlightLimit (S : Type) where
  inner : S
  max : Nat

/-- `InFlightLimit::new`. -/
def InFlightLimit.new {S : Type} (s : S) (max : Nat) : InFlightLimit S :=
  ⟨s, max⟩

/-- Modelled from the spec: `bind::BufferSpawnError` (bind.rs is not in
src/) — which proxy side failed to spawn its buffer task. -/
inductive BufferSpawnError where
  | Inbound
  | Outbound
deriving DecidableEq, Repr

/-- `Recognize::Service` for `Outbound`: the stack
`InFlightLimit<Timeout<Buffer<Balance<WithPeakEwma<Discovery>>>>>`,
inner to outer: balancer, single-flight buffer, timeout, in-flight cap. -/
abbrev Service (Svc : Type) : Type :=
  InFlightLimit (Timeout (Buffer (Balance (WithPeakEwma (Discovery Svc)))))

/-- `Outbound::bind_service` from `outbound.rs`: build the discovery source
for the key's destination, wrap it in the peak-EWMA p2c balancer, then
buffer (which can fail: `BufferSpawnError::Outbound`), timeout with the
configured `bind_timeout`, and cap at `MAX_IN_FLIGHT`. -/
def Outbound.bind_service {Svc : Type} (o : Outbound Svc)
    (key : Destination × Protocol) (spawnOk : Bool) :
    Except BufferSpawnError (Service Svc) :=
  let dest := key.1
  let protocol := key.2
  let resolve : Discovery Svc :=
    match dest with
    | .Hostname authority =>
      .NamedSvc (o.discovery.resolve authority (o.bind.withProtocol protocol))
    | .ImplicitOriginalDst addr =>
      .ImplicitOriginalDst (some (addr, o.bind.withProtocol protocol))
  let balance := Balance.p2c (WithPeakEwma.new resolve DEFAULT_DECAY ⟨⟩)
  match Buffer.new balance spawnOk with
  | .error _ => .error .Outbound
  | .ok buffer =>
    .ok (InFlightLimit.new (Timeout.new buffer o.bind_timeout) MAX_IN_FLIGHT)

/-- C7: for every routing key, `bind_service` wraps the balancer in (inner
to outer) the single-flight buffer, a timeout of the configured
`bind_timeout`, and an in-flight cap of `MAX_IN_FLIGHT = 10000` — witnessed
both by the service's `Service` type and by the field equations below — and
it fails, with `BufferSpawnError::Outbound`, exactly when constructing the
buffering stage fails. -/
theorem bind_service_stack {Svc : Type} (o : Outbound Svc)
    (key : Destination × Protocol) (spawnOk : Bool) :
    (spawnOk = true → ∃ buffer,
      o.bind_service key spawnOk
        = .ok (InFlightLimit.new (Timeout.new buffer o.bind_timeout)
            MAX_IN_FLIGHT) ∧ MAX_IN_FLIGHT = 10000) ∧
    (spawnOk = false →
      o.bind_service key spawnOk = .error BufferSpawnError.Outbound) ∧
    (∀ s, o.bind_service key spawnOk = .ok s →
      s.max = 10000 ∧ s.inner.duration = o.bind_timeout) ∧
    (∀ e, o.bind_service key spawnOk = .error e →
      e = BufferSpawnError.Outbound ∧ spawnOk = false) := by
  refine ⟨?_, ?_, ?_, ?_⟩
  · rintro rfl
    exact ⟨_, rfl, rfl⟩
  · rintro rfl
    simp [Outbound.bind_service, Buffer.new]
  · intro s hs
    cases spawnOk with
    | false => simp [Outbound.bind_service, Buffer.new] at hs
    | true =>
      simp only [Outbound.bind_service, Buffer.new, if_pos] at hs
      cases hs
      exact ⟨rfl, rfl⟩
  · intro e he
    cases spawnOk with
    | true => simp [Outbound.bind_service, Buffer.new] at he
    | false =>
      simp only [Outbound.bind_service, Buffer.new, if_neg] at he
      cases he
      exact ⟨rfl, rfl⟩

/-- Witness for C7 at a concrete outbound router and key. -/
theorem bind_service_stack_witness :
    ∃ buffer,
      (⟨⟨fun _ => ⟨fun _ => Except.ok ()⟩⟩, ⟨fun _ _ => []⟩, ⟨5, 0⟩⟩
            : Outbound Unit).bind_service
          (Destination.ImplicitOriginalDst ⟨⟨0⟩, 80⟩, Protocol.Http1) true
        = .ok (InFlightLimit.new (Timeout.new buffer (⟨5, 0⟩ : Duration))
            MAX_IN_FLIGHT) ∧ MAX_IN_FLIGHT = 10000 :=
  (bind_service_stack
      (⟨⟨fun _ => ⟨fun _ => Except.ok ()⟩⟩, ⟨fun _ _ => []⟩, ⟨5, 0⟩⟩
            : Outbound Unit)
      (Destination.ImplicitOriginalDst ⟨⟨0⟩, 80⟩, Protocol.Http1) true).1 rfl

/-! ### Request context (`ctx/http.rs`) -/

/-- Modelled from the spec: `control::discovery::DstLabelsWatch` (not in
src/) — a watch cell carrying the latest destination labels for the
client's transport. -/
structure DstLabelsWatch where
  current : Option DstLabels
deriving DecidableEq

/-- Modelled from the spec: `ctx::transport::Client` (not in src/) — the
proxy-client transport context; the only field read in `ctx/http.rs` is its
`dst_labels` watch. -/
structure Client where
  dst_labels : Option DstLabelsWatch
deriving DecidableEq

/-- `ctx::http::Request` from `ctx/http.rs`: id, URI (its authority part
stands in for the cloned URI), method, server and client contexts, and the
`dst_labels` copied from the incoming request's extension. -/
structure Ctx.Request where
  id : Nat
  uri : Option Authority
  method : String
  server : Server
  client : Client
  dst_labels : Option DstLabels

/-- `ctx::http::Request::new` from `ctx/http.rs`: looks up the `DstLabels`
extension of the incoming request and copies it, together with the URI and
method, next to the given server and client contexts. -/
def Ctx.Request.new (request : Conduit.Request) (server : Server)
    (client : Client) (id : Nat) : Ctx.Request :=
  let dst_labels := request.dstLabelsExt
  { id := id
    uri := request.uriAuthority
    method := request.method
    server := server
    client := client
    dst_labels := dst_labels }

/-- `ctx::http::Request::dst_labels` from `ctx/http.rs` (the accessor named
like the field): it returns `self.client.dst_labels`, the client transport
context's watch — not the request's own `dst_labels` field. -/
def Ctx.Request.dst_labels_method (r : Ctx.Request) : Option DstLabelsWatch :=
  r.client.dst_labels

/-- C10: the context request's `dst_labels` field is `Some` iff the incoming
request carried a `DstLabels` extension (`new` copies it read-only), while
the accessor `dst_labels()` returns the client transport context's watch,
unchanged by whatever extension the request carried. -/
theorem ctx_request_dst_labels (req : Request) (server : Server)
    (client : Client) (id : Nat) :
    ((Ctx.Request.new req server client id).dst_labels = req.dstLabelsExt) ∧
    ((Ctx.Request.new req server client id).dst_labels.isSome
      ↔ req.dstLabelsExt.isSome) ∧
    ((Ctx.Request.new req server client id).dst_labels_method
      = client.dst_labels) ∧
    (∀ ext2,
      (Ctx.Request.new { req with dstLabelsExt := ext2 } server client
          id).dst_labels_method
        = (Ctx.Request.new req server client id).dst_labels_method) :=
  ⟨rfl, Iff.rfl, rfl, fun _ => rfl⟩

end Conduit
